import Mathlib

/-!
Verification development for the stock-news ingestion and summarization
pipeline (`server/services/aiProcessor.js`).

The JavaScript source is shallowly embedded: each JS function that the
properties below talk about is translated into a Lean function over
explicit data (strings become `String`/`List Char`, timestamps become
`Int` milliseconds, the generative-service call becomes an explicit
`GenOutcome` argument, the mutable cache and rate-limiter state become
explicit state values threaded through the functions, JavaScript objects
with dynamic fields become association lists `List (String × Json)` with
last-occurrence-wins lookup, matching JS property override order).

The source file contains two revisions of the `AIProcessor` class and two
revisions of the `NewsCollector` class; where the two revisions of a
function differ they are embedded separately (`generateSummaryV1` for the
`generateSummary(articles, historicalSummaries)` variant and
`generateSummaryV2` for the `generateSummary(ticker, articles,
historicalData)` variant).  `rateLimit`, `selectTopArticles` and
`removeDuplicates` are identical in both revisions and embedded once.
-/

namespace StockNews

/-! ## Character and string utilities

Lean's built-in `String.toLower`, `String.trim`, `String.splitOn` do not
reduce in the kernel, so all string manipulation is done on `List Char`.
-/

/-- Whitespace characters recognised by the model (covers the whitespace
the JS regexes `\s` and `trim` can meet in the texts involved). -/
def isWsChar (c : Char) : Bool :=
  c == ' ' || c == '\t' || c == '\n' || c == '\r'

def skipWs (cs : List Char) : List Char := cs.dropWhile isWsChar

/-- `List Char` version of `trim` (drop whitespace at both ends),
modelling JS `String.prototype.trim`. -/
def trimChars (cs : List Char) : List Char :=
  ((cs.dropWhile isWsChar).reverse.dropWhile isWsChar).reverse

def trimStr (s : String) : String := String.mk (trimChars s.toList)

/-- ASCII lower-casing, modelling JS `toLowerCase` on the ASCII titles
and keywords the code manipulates. -/
def toLowerList (cs : List Char) : List Char := cs.map Char.toLower

def lowerStr (s : String) : String := String.mk (toLowerList s.toList)

/-- `pat` is a prefix of `cs`. -/
def prefAt (pat cs : List Char) : Bool :=
  match pat, cs with
  | [], _ => true
  | _ :: _, [] => false
  | a :: as, b :: bs => a == b && prefAt as bs

/-- `pat` occurs somewhere in `cs` (JS `String.prototype.includes`;
in particular the empty pattern is always found). -/
def hasSub (pat : List Char) : List Char → Bool
  | [] => prefAt pat []
  | c :: bs => prefAt pat (c :: bs) || hasSub pat bs

/-- Substring test on `String`s (JS `includes`). -/
def containsStr (s pat : String) : Bool := hasSub pat.toList s.toList

/-- Index of the first occurrence of `pat` in `cs` (JS `indexOf` /
leftmost regex match of a literal pattern). -/
def findSubIdx (pat : List Char) : List Char → Option Nat
  | [] => if prefAt pat [] then some 0 else none
  | c :: bs =>
    if prefAt pat (c :: bs) then some 0
    else (findSubIdx pat bs).map (· + 1)

def natOfDigits (cs : List Char) : Nat :=
  cs.foldl (fun n c => n * 10 + (c.toNat - 48)) 0

/-- Maximal runs of decimal digits, left to right (the JS global regex
`/\d+/g`). -/
def digitRunsAux : List Char → List Char → List (List Char)
  | [], acc => if acc.isEmpty then [] else [acc.reverse]
  | c :: rest, acc =>
    if c.isDigit then digitRunsAux rest (c :: acc)
    else if acc.isEmpty then digitRunsAux rest []
    else acc.reverse :: digitRunsAux rest []

def digitRuns (cs : List Char) : List (List Char) := digitRunsAux cs []

/-- `Array.prototype.join(sep)`. -/
def joinSep (sep : String) : List String → String
  | [] => ""
  | [s] => s
  | s :: rest => s ++ sep ++ joinSep sep rest

/-- `[...new Set(xs)]`: deduplicate keeping first occurrences in order. -/
def dedupFirst : List String → List String
  | [] => []
  | s :: rest => s :: (dedupFirst rest).filter (fun t => t != s)

/-! ## Article data model

An article as produced by the source adapters.  `publishedAt` is an
absolute timestamp in milliseconds (the code stores ISO strings and
compares them through `new Date(...)`; the model uses the numeric value
directly). -/

structure Article where
  title : String
  url : String
  source : String
  provider : String
  publishedAt : Int
  content : String
deriving DecidableEq

/-! ## Deduplication (`NewsCollector.removeDuplicates`) -/

def isAlnumLower (c : Char) : Bool :=
  (('a' ≤ c) && (c ≤ 'z')) || (('0' ≤ c) && (c ≤ '9'))

/-- The dedup fingerprint:
`title.toLowerCase().replace(/[^a-z0-9]/g, '').substring(0, 50).trim()`.
(The final `trim` is the identity because stripping non-alphanumerics
already removed all whitespace; it is kept for faithfulness.) -/
def fingerprint (title : String) : String :=
  String.mk (trimChars (((toLowerList title.toList).filter isAlnumLower).take 50))

/-- The first pass of `removeDuplicates`: walk the list keeping the first
article for each non-empty fingerprint (`seen` is the set of fingerprints
already kept; an article whose fingerprint is the empty string is dropped
by the `if (fingerprint && ...)` guard). -/
def dedupAux (seen : List String) : List Article → List Article
  | [] => []
  | a :: rest =>
    let fp := fingerprint a.title
    if fp != "" && !(seen.contains fp) then a :: dedupAux (fp :: seen) rest
    else dedupAux seen rest

/-! JS `Array.prototype.sort` is a stable sort; it is modelled by stable
insertion: each element is inserted after every already-placed element
that sorts before-or-equal to it. -/

def stableInsert (le : α → α → Bool) (a : α) : List α → List α
  | [] => [a]
  | b :: bs => if le b a then b :: stableInsert le a bs else a :: b :: bs

def jsSort (le : α → α → Bool) (l : List α) : List α :=
  l.foldl (fun acc a => stableInsert le a acc) []

/-- Comparator `(a, b) => new Date(b.publishedAt) - new Date(a.publishedAt)`:
descending by publication time. -/
def byDateDesc (a b : Article) : Bool := b.publishedAt ≤ a.publishedAt

/-- `NewsCollector.removeDuplicates`: fingerprint dedup, then sort
descending by `publishedAt`. -/
def removeDuplicates (articles : List Article) : List Article :=
  jsSort byDateDesc (dedupAux [] articles)

/-! ## Rate limiter (`AIProcessor.rateLimit`)

State `(lastRequestTime, requestCount)`; a call at wall-clock time `now`
either proceeds immediately or (when 15 requests have been counted and
the 60 s window has not elapsed) sleeps until `lastRequestTime + 60000`,
resets the counter, and proceeds.  `rateLimitStep` returns the time at
which the generative call actually starts together with the new state.
(The second revision's `generateSummary` additionally increments
`requestCount` once more after acquiring; that only consumes extra budget
and is not part of `rateLimit` itself, whose acquisitions are modelled
here.) -/

def maxRequestsPerMinute : Nat := 15

structure RateState where
  lastRequestTime : Int
  requestCount : Nat
deriving DecidableEq

def rateLimitStep (s : RateState) (now : Int) : Int × RateState :=
  if now - s.lastRequestTime < 60000 then
    if maxRequestsPerMinute ≤ s.requestCount then
      (s.lastRequestTime + 60000, ⟨s.lastRequestTime + 60000, 1⟩)
    else
      (now, ⟨s.lastRequestTime, s.requestCount + 1⟩)
  else
    (now, ⟨now, 1⟩)

/-- Run a sequence of `rateLimit` calls arriving at the given wall-clock
times, collecting the start time of each generative call. -/
def runRateCalls (s : RateState) : List Int → List Int × RateState
  | [] => ([], s)
  | t :: ts =>
    let step := rateLimitStep s t
    let rest := runRateCalls step.2 ts
    (step.1 :: rest.1, rest.2)

/-- The property claimed of the limiter: no rolling 60-second window ever
contains more than 15 call starts. -/
def rollingWindowOK (starts : List Int) : Prop :=
  ∀ w : Int,
    (starts.filter (fun t => decide (w ≤ t) && decide (t < w + 60000))).length
      ≤ maxRequestsPerMinute

/-- The limiter states after each call of a trace. -/
def runStates (s : RateState) : List Int → List RateState
  | [] => []
  | t :: ts => (rateLimitStep s t).2 :: runStates (rateLimitStep s t).2 ts

/-- How many calls of a trace are counted against the fixed window that
starts at `w` (each call is counted against the window start recorded in
the state it leaves behind). -/
def countWindow (w : Int) (l : List RateState) : Nat :=
  (l.filter (fun q => q.lastRequestTime == w)).length

/-! ## JSON values and `JSON.parse`

JavaScript objects flowing out of `JSON.parse` and object literals are
modelled by `Json`.  Numeric literals are kept as their lexeme (the code
never does arithmetic on parsed numbers; the numbers it writes itself are
produced with `toString`). -/

inductive Json where
  | null : Json
  | bool : Bool → Json
  | num : String → Json
  | str : String → Json
  | arr : List Json → Json
  | obj : List (String × Json) → Json

def braceL : Char := '\x7b'
def braceR : Char := '\x7d'

/-- The JSON two-character string escapes (`\u` is handled separately),
as a lookup table from the escape letter to the denoted character. -/
def escTable : List (Char × Char) :=
  [('"', '"'), ('\\', '\\'), ('/', '/'), ('b', '\x08'), ('f', '\x0c'),
   ('n', '\n'), ('r', '\r'), ('t', '\t')]

/-- Decode a JSON string escape character (the character after `\`). -/
def escChar (c : Char) : Option Char :=
  (escTable.find? (fun p => p.1 == c)).map (·.2)

def hexVal (c : Char) : Option Nat :=
  if '0' ≤ c && c ≤ '9' then some (c.toNat - 48)
  else if 'a' ≤ c && c ≤ 'f' then some (c.toNat - 87)
  else if 'A' ≤ c && c ≤ 'F' then some (c.toNat - 55)
  else none

/-- Body of a JSON string literal after the opening quote: characters up
to the closing quote, decoding escapes; an unescaped control character is
a parse error, as in `JSON.parse`. -/
def strBody (cs : List Char) (acc : List Char) : Option (String × List Char) :=
  match cs with
  | [] => none
  | c :: rest =>
    if c == '"' then some (String.mk acc.reverse, rest)
    else if c.toNat < 32 then none
    else if c == '\\' then
      match rest with
      | [] => none
      | e :: rest2 =>
        if e == 'u' then
          match rest2 with
          | h1 :: h2 :: h3 :: h4 :: rest3 =>
            match hexVal h1, hexVal h2, hexVal h3, hexVal h4 with
            | some a, some b, some c', some d =>
              strBody rest3 (Char.ofNat (((a * 16 + b) * 16 + c') * 16 + d) :: acc)
            | _, _, _, _ => none
          | _ => none
        else
          match escChar e with
          | some ch => strBody rest2 (ch :: acc)
          | none => none
    else strBody rest (c :: acc)

/-- JSON number grammar `-? (0 | [1-9][0-9]*) (. [0-9]+)? ([eE][+-]?[0-9]+)?`;
returns the lexeme.  (In particular a leading zero such as `01` is a parse
error, as in `JSON.parse`.) -/
def numLex (cs : List Char) : Option (String × List Char) :=
  let (sign, cs1) :=
    match cs with
    | '-' :: rest => (['-'], rest)
    | _ => (([] : List Char), cs)
  match cs1 with
  | [] => none
  | c :: rest =>
    if !c.isDigit then none else
    let (intPart, cs2) :=
      if c == '0' then ([c], rest)
      else
        let run := rest.takeWhile Char.isDigit
        (c :: run, rest.drop run.length)
    let (fracPart, cs3) :=
      match cs2 with
      | '.' :: r =>
        let run := r.takeWhile Char.isDigit
        if run.isEmpty then (none, cs2) else (some ('.' :: run), r.drop run.length)
      | _ => (none, cs2)
    match fracPart, cs3 with
    | none, '.' :: _ => none
    | _, _ =>
      let (expPart, cs4) :=
        match cs3 with
        | e :: r =>
          if e == 'e' || e == 'E' then
            let (es, r2) :=
              match r with
              | '+' :: r2 => (['+'], r2)
              | '-' :: r2 => (['-'], r2)
              | _ => (([] : List Char), r)
            let run := r2.takeWhile Char.isDigit
            if run.isEmpty then (none, cs3) else (some (e :: es ++ run), r2.drop run.length)
          else (none, cs3)
        | [] => (none, cs3)
      some (String.mk (sign ++ intPart ++ (fracPart.getD []) ++ (expPart.getD [])), cs4)

mutual

/-- Fueled recursive-descent JSON value parser (models `JSON.parse`; the
fuel supplied by `jsonParse` is ample for every input the code can meet). -/
def jpVal : Nat → List Char → Option (Json × List Char)
  | 0, _ => none
  | fuel + 1, cs =>
    match skipWs cs with
    | [] => none
    | c :: rest =>
      if c == 'n' then
        match rest with
        | 'u' :: 'l' :: 'l' :: r => some (.null, r)
        | _ => none
      else if c == 't' then
        match rest with
        | 'r' :: 'u' :: 'e' :: r => some (.bool true, r)
        | _ => none
      else if c == 'f' then
        match rest with
        | 'a' :: 'l' :: 's' :: 'e' :: r => some (.bool false, r)
        | _ => none
      else if c == '"' then
        match strBody rest [] with
        | some (s, r) => some (.str s, r)
        | none => none
      else if c == '[' then
        match skipWs rest with
        | ']' :: r => some (.arr [], r)
        | _ =>
          match jpArrItems fuel rest [] with
          | some (xs, r) => some (.arr xs, r)
          | none => none
      else if c == braceL then
        match skipWs rest with
        | b :: r =>
          if b == braceR then some (.obj [], r)
          else
            match jpObjItems fuel rest [] with
            | some (fs, r2) => some (.obj fs, r2)
            | none => none
        | [] => none
      else if c == '-' || c.isDigit then
        match numLex (c :: rest) with
        | some (lex, r) => some (.num lex, r)
        | none => none
      else none

/-- Array elements after `[` (at least one element present). -/
def jpArrItems : Nat → List Char → List Json → Option (List Json × List Char)
  | 0, _, _ => none
  | fuel + 1, cs, acc =>
    match jpVal fuel cs with
    | none => none
    | some (v, r) =>
      match skipWs r with
      | ',' :: r2 => jpArrItems fuel r2 (v :: acc)
      | ']' :: r2 => some ((v :: acc).reverse, r2)
      | _ => none

/-- Object members after the opening brace (at least one member present). -/
def jpObjItems : Nat → List Char → List (String × Json) →
    Option (List (String × Json) × List Char)
  | 0, _, _ => none
  | fuel + 1, cs, acc =>
    match skipWs cs with
    | '"' :: r =>
      match strBody r [] with
      | none => none
      | some (key, r2) =>
        match skipWs r2 with
        | ':' :: r3 =>
          match jpVal fuel r3 with
          | none => none
          | some (v, r4) =>
            match skipWs r4 with
            | ',' :: r5 => jpObjItems fuel r5 ((key, v) :: acc)
            | b :: r5 =>
              if b == braceR then some (((key, v) :: acc).reverse, r5) else none
            | [] => none
        | _ => none
    | _ => none

end

/-- `JSON.parse`: parse one value and require only trailing whitespace. -/
def jsonParse (s : String) : Option Json :=
  let cs := s.toList
  match jpVal (2 * cs.length + 2) cs with
  | some (j, rest) => if (skipWs rest).isEmpty then some j else none
  | none => none

/-! ## Abstract outcome of one generative-service call

`model.generateContent(prompt)` either raises (network/auth/model error)
or yields a raw response text; nothing else about the service is
assumed. -/

inductive GenOutcome where
  | failure (msg : String) : GenOutcome
  | ok (text : String) : GenOutcome

/-! ## Article selector (`AIProcessor.selectTopArticles`) -/

/-- Source credibility tiers
`{ 'Polygon': 3, 'Finviz': 2, 'TradingView': 1 }` (anything else 0). -/
def sourceRank (s : String) : Nat :=
  if s == "Polygon" then 3
  else if s == "Finviz" then 2
  else if s == "TradingView" then 1
  else 0

/-- Comparator `(a, b) => sourceOrder[b.source] - sourceOrder[a.source]`:
descending credibility, stable. -/
def byCredDesc (a b : Article) : Bool := sourceRank b.source ≤ sourceRank a.source

def credSort (l : List Article) : List Article := jsSort byCredDesc l

def isBracketBody (c : Char) : Bool := c.isDigit || c == ',' || isWsChar c

/-- Leftmost match of `/\[[\d\s,]+\]/`: the body (between the brackets) of
the first `[` followed by a non-empty run of digits/whitespace/commas and
a closing `]`. -/
def firstBracket : List Char → Option (List Char)
  | [] => none
  | c :: rest =>
    if c == '[' then
      let run := rest.takeWhile isBracketBody
      if !run.isEmpty && (rest.drop run.length).head? == some ']' then some run
      else firstBracket rest
    else firstBracket rest

def jsonNatItem (j : Json) : Option Nat :=
  match j with
  | .num lex => some (natOfDigits lex.toList)
  | _ => none

/-- The selector's lenient response parsing: try `JSON.parse` on the first
bracketed numeric array in the text; if no such array is present, fall
back to every digit run in the text (`text.match(/\d+/g)`).  `none` means
`JSON.parse` threw (the inner `catch`).  (The `.trim()` the code applies
to the response affects neither the bracket search nor the digit
extraction, so it is not modelled.) -/
def parsedIndices (text : String) : Option (List Nat) :=
  match firstBracket text.toList with
  | some run =>
    match jsonParse (String.mk ('[' :: (run ++ [']']))) with
    | some (.arr xs) => some (xs.filterMap jsonNatItem)
    | _ => none
  | none => some ((digitRuns text.toList).map natOfDigits)

/-- Convert 1-based to 0-based, keep in-range indices, cap at 7, read off
the articles. -/
def selectByIndices (articles : List Article) (nums : List Nat) : List Article :=
  ((((nums.map (fun n => (n : Int) - 1)).filter
      (fun i => decide (0 ≤ i) && decide (i < (articles.length : Int)))).take 7).filterMap
    (fun i => articles.get? i.toNat))

/-- `AIProcessor.selectTopArticles` (identical in both revisions).  The
second component counts the generative-service calls issued. -/
def selectTopArticles (articles : List Article) (outcome : GenOutcome) :
    List Article × Nat :=
  if articles.length = 0 then ([], 0)
  else if articles.length ≤ 7 then (articles, 0)
  else
    match outcome with
    | .failure _ => ((credSort articles).take 6, 1)
    | .ok text =>
      match parsedIndices text with
      | none => (articles.take 6, 1)
      | some nums =>
        let sel := selectByIndices articles nums
        if sel.isEmpty then (articles.take 6, 1) else (sel, 1)

/-! ## News collection (`NewsCollector.collectNews`) -/

structure CacheEntry where
  data : List Article
  timestamp : Int
deriving DecidableEq

/-- The `Map`-backed cache, as an association list with
first-occurrence-wins lookup. -/
def cacheGet (cache : List (String × CacheEntry)) (k : String) : Option CacheEntry :=
  (cache.find? (fun p => p.1 == k)).map (·.2)

def cacheSet (cache : List (String × CacheEntry)) (k : String) (e : CacheEntry) :
    List (String × CacheEntry) :=
  (k, e) :: cache.filter (fun p => p.1 != k)

/-- Outcome of the three `Promise.allSettled` adapter calls: `none` means
the adapter's promise rejected. -/
structure FetchResults where
  tradingView : Option (List Article)
  finviz : Option (List Article)
  polygon : Option (List Article)

/-- Merge the fulfilled adapter results in adapter order. -/
def settledMerge (f : FetchResults) : List Article :=
  f.tradingView.getD [] ++ f.finviz.getD [] ++ f.polygon.getD []

/-- The second relevance pass in `collectNews`. -/
def relevantTo (ticker : String) (a : Article) : Bool :=
  let tl := lowerStr ticker
  let titleL := lowerStr a.title
  let contentL := lowerStr a.content
  containsStr titleL tl || containsStr contentL tl ||
    containsStr titleL "earnings" || containsStr titleL "revenue" ||
    containsStr titleL "analyst" || containsStr titleL "price target" ||
    containsStr titleL "upgrade" || containsStr titleL "downgrade"

/-- The fetch → filter → dedup pipeline run on a cache miss. -/
def collectPipeline (ticker : String) (fetched : FetchResults) : List Article :=
  removeDuplicates ((settledMerge fetched).filter (relevantTo ticker))

def cacheExpiry : Int := 5 * 60 * 1000

/-- `NewsCollector.collectNews`: returns the article list, the new cache
state, and the number of adapter requests issued (0 on a fresh cache hit,
3 — one per source — otherwise). -/
def collectNews (cache : List (String × CacheEntry)) (ticker : String)
    (now : Int) (fetched : FetchResults) :
    List Article × List (String × CacheEntry) × Nat :=
  match cacheGet cache ticker with
  | some e =>
    if now - e.timestamp < cacheExpiry then (e.data, cache, 0)
    else
      let unique := collectPipeline ticker fetched
      (unique, cacheSet cache ticker ⟨unique, now⟩, 3)
  | none =>
    let unique := collectPipeline ticker fetched
    (unique, cacheSet cache ticker ⟨unique, now⟩, 3)

/-! ## JavaScript object results

The summary generators return JavaScript objects with dynamic fields;
they are modelled as association lists with the lookup taking the LAST
occurrence of a key, so that `{...spread, k: v}` is simply list append. -/

def jget (o : List (String × Json)) (k : String) : Option Json :=
  (o.reverse.find? (fun p => p.1 == k)).map (·.2)

/-- JS object-spread `{...v}`: the own enumerable properties of `v`
(fields of an object, indexed characters of a string, indexed elements of
an array, nothing for primitives). -/
def spreadFields : Json → List (String × Json)
  | .obj fs => fs
  | .str s => s.toList.enum.map (fun p => (toString p.1, Json.str (String.mk [p.2])))
  | .arr xs => xs.enum.map (fun p => (toString p.1, p.2))
  | _ => []

/-! ## Response cleaning (second `generateSummary` revision)

`text.replace(/```json\n?/, '').replace(/\n?```/, '').trim()`:
non-global replaces, so only the first occurrence of each pattern is
removed. -/

/-- Remove the first occurrence of ```` ```json ```` plus a directly
following newline. -/
def removeFenceOpen (s : String) : String :=
  let cs := s.toList
  match findSubIdx "```json".toList cs with
  | none => s
  | some i =>
    let after := cs.drop (i + 7)
    let after2 :=
      match after with
      | '\n' :: r => r
      | _ => after
    String.mk (cs.take i ++ after2)

/-- Remove the leftmost match of `/\n?```/`. -/
def fenceCloseAux : List Char → Option (Nat × Nat)
  | [] => none
  | c :: rest =>
    if c == '\n' && prefAt "```".toList rest then some (0, 4)
    else if c == '`' && prefAt "``".toList rest then some (0, 3)
    else (fenceCloseAux rest).map (fun p => (p.1 + 1, p.2))

def removeFenceClose (s : String) : String :=
  let cs := s.toList
  match fenceCloseAux cs with
  | none => s
  | some (i, len) => String.mk (cs.take i ++ cs.drop (i + len))

/-! ## Field-level recovery regexes (second revision)

`/"field":\s*"([^"]*(?:[^"\\]|\\.)*)/` — after `"field":`, optional
whitespace and an opening quote, the capture runs to the next `"` (or to
the end of the text when no quote follows); greedy matching never carries
the capture past a quote because nothing after the group forces
backtracking, so the subsequent `.replace(/\\"/g, '"')` is the identity
on what is captured.  If an occurrence of `"field":` is not followed by a
quote the engine retries at later occurrences. -/

def strFieldOpenAux : Nat → List Char → List Char → Option (List Char)
  | 0, _, _ => none
  | fuel + 1, pat, cs =>
    match findSubIdx pat cs with
    | none => none
    | some i =>
      match skipWs (cs.drop (i + pat.length)) with
      | '"' :: rest => some (rest.takeWhile (fun c => c != '"'))
      | _ => strFieldOpenAux fuel pat (cs.drop (i + 1))

def fieldPat (key : String) : List Char := ('"' :: key.toList) ++ ['"', ':']

def strFieldOpen (key : String) (text : String) : Option String :=
  (strFieldOpenAux text.toList.length (fieldPat key) text.toList).map String.mk

/-- `/"field":\s*"([^"]*)"/` — like `strFieldOpen` but the closing quote
must be present. -/
def strFieldClosedAux : Nat → List Char → List Char → Option (List Char)
  | 0, _, _ => none
  | fuel + 1, pat, cs =>
    match findSubIdx pat cs with
    | none => none
    | some i =>
      match skipWs (cs.drop (i + pat.length)) with
      | '"' :: rest =>
        let capt := rest.takeWhile (fun c => c != '"')
        if capt.length < rest.length then some capt
        else strFieldClosedAux fuel pat (cs.drop (i + 1))
      | _ => strFieldClosedAux fuel pat (cs.drop (i + 1))

def strFieldClosed (key : String) (text : String) : Option String :=
  (strFieldClosedAux text.toList.length (fieldPat key) text.toList).map String.mk

/-- `/"keyPoints":\s*(\[[^\]]*\])/` — the bracketed capture (brackets
included) after `"keyPoints":`. -/
def kpBracketAux : Nat → List Char → Option (List Char)
  | 0, _ => none
  | fuel + 1, cs =>
    match findSubIdx (fieldPat "keyPoints") cs with
    | none => none
    | some i =>
      match skipWs (cs.drop (i + (fieldPat "keyPoints").length)) with
      | '[' :: rest =>
        let body := rest.takeWhile (fun c => c != ']')
        if body.length < rest.length then some ('[' :: body ++ [']'])
        else kpBracketAux fuel (cs.drop (i + 1))
      | _ => kpBracketAux fuel (cs.drop (i + 1))

def kpBracket (text : String) : Option String :=
  (kpBracketAux text.toList.length text.toList).map String.mk

/-! ## Plain-text fallback extractors (second revision) -/

def bulletChar (c : Char) : Bool := c == '•' || c == '-' || c == '*'

def splitLinesAux : List Char → List Char → List (List Char)
  | [], acc => [acc.reverse]
  | c :: rest, acc =>
    if c == '\n' then acc.reverse :: splitLinesAux rest []
    else splitLinesAux rest (c :: acc)

def splitLines (cs : List Char) : List (List Char) := splitLinesAux cs []

/-- One line's match of `/[•\-\*]\s*(.+)$/`: the first bullet character
that is not the last character of the line; `\s*` yields greedily but
backs off so that `(.+)` captures at least one character. -/
def bulletCapture : List Char → Option (List Char)
  | [] => none
  | c :: rest =>
    if bulletChar c && !rest.isEmpty then
      some (if rest.any (fun x => !isWsChar x) then rest.dropWhile isWsChar
            else [rest.getLastD ' '])
    else bulletCapture rest

/-- One line's match of `/^\d+\.\s*(.+)$/`. -/
def numberCapture (line : List Char) : Option (List Char) :=
  let run := line.takeWhile Char.isDigit
  if run.isEmpty then none
  else
    match line.drop run.length with
    | '.' :: rest =>
      if rest.isEmpty then none
      else some (if rest.any (fun x => !isWsChar x) then rest.dropWhile isWsChar
                 else [rest.getLastD ' '])
    | _ => none

/-- `AIProcessor.extractKeyPoints`. -/
def extractKeyPoints (text : String) : List String :=
  let ls := splitLines text.toList
  let bullets := ls.filterMap bulletCapture
  let nums := ls.filterMap numberCapture
  let points := ((bullets ++ nums).map (fun c => String.mk (trimChars c))).take 5
  if points.isEmpty then
    ["Market activity continues", "News developments ongoing", "Investor attention warranted"]
  else points

def positiveWords : List (List Char) :=
  ["positive", "bullish", "optimistic", "growth", "increase", "up", "gain",
   "strong", "good", "excellent", "surge", "rally", "beat", "exceeds"].map String.toList

def negativeWords : List (List Char) :=
  ["negative", "bearish", "pessimistic", "decline", "decrease", "down", "loss",
   "weak", "bad", "poor", "fall", "drop", "miss", "below"].map String.toList

/-- Count the non-overlapping matches of an alternation of literal words,
scanning left to right and preferring the first alternative at each
position (JS global alternation regex). -/
def countAlt (words : List (List Char)) : Nat → List Char → Nat
  | 0, _ => 0
  | fuel + 1, cs =>
    match cs with
    | [] => 0
    | _ :: rest =>
      match words.find? (fun w => prefAt w cs) with
      | some w => 1 + countAlt words fuel (cs.drop w.length)
      | none => countAlt words fuel rest

/-- `AIProcessor.extractSentiment`. -/
def extractSentiment (text : String) : String :=
  let low := toLowerList text.toList
  let p := countAlt positiveWords low.length low
  let n := countAlt negativeWords low.length low
  if n < p then "positive" else if p < n then "negative" else "neutral"

def isEnder (c : Char) : Bool := c == '.' || c == '!' || c == '?'

/-- Match of `/needle[^.!?]*[.!?]/i`: from the first (case-insensitive)
occurrence of `needle` up to and including the first sentence ender;
no match when no ender follows (later occurrences cannot help since they
see a subset of the same tail). -/
def sentenceFrom (needleLow : List Char) (text : List Char) : Option (List Char) :=
  match findSubIdx needleLow (toLowerList text) with
  | none => none
  | some i =>
    let tail := text.drop i
    let captLen := (tail.takeWhile (fun c => !isEnder c)).length
    if captLen < tail.length then some (tail.take (captLen + 1)) else none

def apos : Char := Char.ofNat 39

/-- Match of `/today['s\s][^.!?]*[.!?]/i`: `today` followed by an
apostrophe, an `s` or whitespace, then a sentence as above. -/
def todayAux : List Char → List Char → Nat → Option Nat
  | [], _, _ => none
  | c :: rest, low, i =>
    if prefAt "today".toList (c :: rest) then
      match (c :: rest).drop 5 with
      | d :: _ =>
        if d == apos || d == 's' || isWsChar d then some i
        else todayAux rest low (i + 1)
      | [] => todayAux rest low (i + 1)
    else todayAux rest low (i + 1)

def todaySentence (text : List Char) : Option (List Char) :=
  let low := toLowerList text
  match todayAux low low 0 with
  | none => none
  | some i =>
    let tail := text.drop i
    let captLen := (tail.takeWhile (fun c => !isEnder c)).length
    if captLen < tail.length then some (tail.take (captLen + 1)) else none

/-- Match of `/n1.*n2[^.!?]*[.!?]/i`: `n1`, then `n2` further along the
same line (`.` does not cross newlines), then a sentence ender.  (The
engine's greedy `.*` would prefer the last same-line `n2`; the model
takes the first — the distinction does not affect whether a match
exists, which is all the properties below use.) -/
def twoPartSentence (n1 n2 : List Char) (text : List Char) : Option (List Char) :=
  let low := toLowerList text
  match findSubIdx n1 low with
  | none => none
  | some i =>
    let afterStart := i + n1.length
    let seg := (low.drop afterStart).takeWhile (fun c => c != '\n')
    match findSubIdx n2 seg with
    | none => none
    | some k =>
      let endOfN2 := afterStart + k + n2.length
      let tail := text.drop endOfN2
      let captLen := (tail.takeWhile (fun c => !isEnder c)).length
      if captLen < tail.length then
        some ((text.drop i).take (endOfN2 - i + captLen + 1))
      else none

/-- `AIProcessor.extractWhatChanged`. -/
def extractWhatChanged (text : String) : String :=
  let cs := text.toList
  match sentenceFrom "what changed".toList cs with
  | some m => String.mk (trimChars m)
  | none =>
    match sentenceFrom "new development".toList cs with
    | some m => String.mk (trimChars m)
    | none =>
      match todaySentence cs with
      | some m => String.mk (trimChars m)
      | none =>
        match sentenceFrom "recently".toList cs with
        | some m => String.mk (trimChars m)
        | none => "Recent developments indicate continued market activity."

/-- `AIProcessor.extractMarketImplications`. -/
def extractMarketImplications (text : String) : String :=
  let cs := text.toList
  match sentenceFrom "market implication".toList cs with
  | some m => String.mk (trimChars m)
  | none =>
    match twoPartSentence "stock".toList "impact".toList cs with
    | some m => String.mk (trimChars m)
    | none =>
      match sentenceFrom "investor".toList cs with
      | some m => String.mk (trimChars m)
      | none =>
        match twoPartSentence "price".toList "target".toList cs with
        | some m => String.mk (trimChars m)
        | none => "Market implications remain to be determined."

/-! ## Summary generation, second revision
(`generateSummary(ticker, articles, historicalData = null)`) -/

/-- The `keyPoints` value the recovery pass will use: the parsed
bracketed capture when one is present and `JSON.parse` accepts it, the
two-sentence placeholder when no bracketed capture is present, and
`none` — recovery aborted by the nested `JSON.parse` exception — when a
capture is present but malformed. -/
def recoverKp (text : String) : Option Json :=
  match kpBracket text with
  | some bracket =>
    match jsonParse bracket with
    | some (.arr xs) => some (.arr xs)
    | _ => none
  | none => some (.arr [.str "Analysis continues", .str "Partial data received"])

/-- The reconstructed object of the recovery pass, in the order the code
writes its fields. -/
def recoverFields (text : String) (kpVal : Json) : List (String × Json) :=
  [("summary", .str ((strFieldOpen "summary" text).getD
      "Analysis in progress - partial data received")),
   ("keyPoints", kpVal),
   ("sentiment", .str ((strFieldClosed "sentiment" text).getD "neutral")),
   ("sentimentReasoning", .str "Partial analysis - full response was truncated"),
   ("whatChangedToday", .str ((strFieldOpen "whatChangedToday" text).getD
      "Recent developments are being analyzed. Please refresh for complete analysis.")),
   ("marketImplications", .str ((strFieldOpen "marketImplications" text).getD
      "Market analysis available but truncated")),
   ("marketImpact", .str ((strFieldClosed "marketImpact" text).getD "medium")),
   ("confidence", .str "low")]

/-- The field-level recovery pass.  `none` when the recovery is not even
attempted (no `"summary":` in the text) or aborted by a nested exception
(a bracketed `keyPoints` capture that `JSON.parse` rejects); otherwise
the reconstructed field list. -/
def recoverV2 (text : String) : Option (List (String × Json)) :=
  if containsStr text "\"summary\":" then
    match recoverKp text with
    | some kpVal => some (recoverFields text kpVal)
    | none => none
  else none

/-- The five metadata fields appended on the successfully-parsed path. -/
def metaV2 (nowIso ticker : String) (articles : List Article)
    (hist : Option (List Article)) : List (String × Json) :=
  [("articlesAnalyzed", .num (toString (articles.take 25).length)),
   ("totalArticles", .num (toString articles.length)),
   ("historicalArticlesUsed", .num (toString (hist.getD []).length)),
   ("lastUpdated", .str nowIso),
   ("ticker", .str ticker)]

/-- The response cleaning of the second revision:
`text.replace(/```json\n?/, '').replace(/\n?```/, '').trim()`. -/
def cleanedOf (text : String) : String :=
  trimStr (removeFenceClose (removeFenceOpen text))

/-- `AIProcessor.generateSummary` (second revision).  `nowIso` stands for
`new Date().toISOString()` at return time. -/
def generateSummaryV2 (nowIso ticker : String) (articles : List Article)
    (hist : Option (List Article)) (outcome : GenOutcome) :
    List (String × Json) :=
  if articles.isEmpty then
    [("summary", .str ("No recent news available for " ++ ticker ++
        ". Please check back later for the latest updates.")),
     ("keyPoints", .arr []),
     ("sentiment", .str "neutral"),
     ("articlesAnalyzed", .num "0"),
     ("whatChangedToday", .str "No recent news to analyze changes.")]
  else
    match outcome with
    | .failure msg =>
      let recentTitles := (articles.take 3).map (·.title)
      [("summary", .str ("Analysis of " ++ toString articles.length ++
          " recent articles about " ++ ticker ++ ". Recent developments include: " ++
          joinSep "; " recentTitles ++
          ". For detailed analysis, please check individual sources.")),
       ("keyPoints", .arr (recentTitles.map Json.str)),
       ("sentiment", .str "neutral"),
       ("whatChangedToday", .str "Unable to analyze changes due to processing error."),
       ("marketImplications", .str "Analysis temporarily unavailable."),
       ("articlesAnalyzed", .num (toString articles.length)),
       ("error", .str msg),
       ("lastUpdated", .str nowIso),
       ("ticker", .str ticker)]
    | .ok text =>
      let cleaned := cleanedOf text
      match jsonParse cleaned with
      | some parsed => spreadFields parsed ++ metaV2 nowIso ticker articles hist
      | none =>
        match recoverV2 cleaned with
        | some recon =>
          recon ++ metaV2 nowIso ticker articles hist ++ [("_recovered", .bool true)]
        | none =>
          [("summary", .str (String.mk (cleaned.toList.take 500) ++ "...")),
           ("keyPoints", .arr ((extractKeyPoints cleaned).map Json.str)),
           ("sentiment", .str (extractSentiment cleaned)),
           ("whatChangedToday", .str (extractWhatChanged cleaned)),
           ("marketImplications", .str (extractMarketImplications cleaned)),
           ("articlesAnalyzed", .num (toString (articles.take 25).length)),
           ("totalArticles", .num (toString articles.length)),
           ("lastUpdated", .str nowIso),
           ("ticker", .str ticker),
           ("fallback", .bool true)]

/-! ## Summary generation, first revision
(`generateSummary(articles, historicalSummaries = [])`) -/

/-- Global `text.replace(/```json\n?|\n?```/g, '')`: leftmost-first scan
removing every fence, the longer ```` ```json ```` alternative preferred
at a given position. -/
def rmFencesAux : Nat → List Char → List Char
  | 0, cs => cs
  | fuel + 1, cs =>
    if prefAt "```json".toList cs then
      match cs.drop 7 with
      | '\n' :: r => rmFencesAux fuel r
      | rest => rmFencesAux fuel rest
    else
      match cs with
      | '\n' :: '`' :: '`' :: '`' :: r => rmFencesAux fuel r
      | '`' :: '`' :: '`' :: r => rmFencesAux fuel r
      | c :: r => c :: rmFencesAux fuel r
      | [] => []

def rmFencesGlobal (s : String) : String :=
  String.mk (rmFencesAux s.toList.length s.toList)

/-- Slice from the first `{` to the last `}` (inclusive) when that span
is non-empty, as in `indexOf('{')` / `lastIndexOf('}') + 1`. -/
def braceSlice (s : String) : String :=
  let cs := s.toList
  match findSubIdx [braceL] cs with
  | none => s
  | some start =>
    match findSubIdx [braceR] cs.reverse with
    | none => s
    | some rj =>
      let endIdx := cs.length - rj
      if start < endIdx then String.mk ((cs.take endIdx).drop start) else s

/-- JS truthiness of a property lookup result (`undefined`, `null`,
`false`, `0`, `""` are falsy; arrays and objects are truthy). -/
def lexAllZero (lex : String) : Bool := lex.toList.all (fun c => !c.isDigit || c == '0')

def jsTruthy : Option Json → Bool
  | none => false
  | some .null => false
  | some (.bool b) => b
  | some (.num lex) => !(lexAllZero lex)
  | some (.str s) => !(s.toList.isEmpty)
  | some (.arr _) => true
  | some (.obj _) => true

/-- Property lookup on an arbitrary parsed value (non-objects have none
of the properties the code asks for). -/
def objFields : Json → List (String × Json)
  | .obj fs => fs
  | _ => []

def requiredFieldsV1 : List String :=
  ["summary", "whatChangedToday", "keyPoints", "sentiment", "marketImpact"]

def requiredTruthy (j : Json) : Bool :=
  requiredFieldsV1.all (fun k => jsTruthy (jget (objFields j) k))

def kpIsArr : Option Json → Bool
  | some (.arr _) => true
  | _ => false

/-- The parse-failure fallback object of the first revision. -/
def parseFallbackV1 (articles : List Article) : List (String × Json) :=
  [("summary", .str ("Analysis of " ++ toString articles.length ++
      " news articles reveals ongoing market developments. Key sources include " ++
      joinSep ", " (dedupFirst (articles.map (·.source))) ++
      ". Recent headlines focus on business operations, market performance, and industry trends.")),
   ("whatChangedToday", .str "Multiple news sources report various developments affecting market sentiment and business operations."),
   ("keyPoints", .arr ((articles.take 4).map (fun a => Json.str a.title))),
   ("sentiment", .str "mixed"),
   ("marketImpact", .str "medium")]

/-- `AIProcessor.generateSummary` (first revision).  The raw response is
trimmed, Markdown fences are stripped globally, the text is sliced to its
outermost braces and parsed; a parsed object must have all five required
fields truthy (otherwise the code throws into the parse-fallback), and a
non-array `keyPoints` is overwritten with `[]`.  (The
`historicalSummaries` argument only shapes the prompt and never the
returned object, so it is not a parameter of the model.) -/
def generateSummaryV1 (articles : List Article) (outcome : GenOutcome) :
    List (String × Json) :=
  if articles.isEmpty then
    [("summary", .str "No recent news available for analysis."),
     ("whatChangedToday", .str "No significant changes detected."),
     ("keyPoints", .arr []),
     ("sentiment", .str "neutral"),
     ("marketImpact", .str "minimal")]
  else
    match outcome with
    | .failure _ =>
      [("summary", .str ("Unable to generate detailed summary. Monitoring " ++
          toString articles.length ++ " news articles from " ++
          joinSep ", " (dedupFirst (articles.map (·.source))) ++ ".")),
       ("whatChangedToday", .str "Summary generation temporarily unavailable."),
       ("keyPoints", .arr ((articles.take 3).map (fun a => Json.str a.title))),
       ("sentiment", .str "neutral"),
       ("marketImpact", .str "unknown")]
    | .ok text =>
      let cleaned := braceSlice (rmFencesGlobal (trimStr text))
      match jsonParse cleaned with
      | none => parseFallbackV1 articles
      | some parsed =>
        if requiredTruthy parsed then
          let fs := objFields parsed
          if kpIsArr (jget fs "keyPoints") then fs
          else fs ++ [("keyPoints", .arr [])]
        else parseFallbackV1 articles

/-! ## Helper lemmas -/

theorem jget_append (xs ys : List (String × Json)) (k : String) :
    jget (xs ++ ys) k = (jget ys k).or (jget xs k) := by
  simp only [jget, List.reverse_append, List.find?_append]
  cases ys.reverse.find? (fun p => p.1 == k) <;> simp [Option.or]

theorem jget_nil (k : String) : jget [] k = none := rfl

theorem dedup_cond_iff (fp : String) (seen : List String) :
    (fp != "" && !(seen.contains fp)) = true ↔ fp ≠ "" ∧ fp ∉ seen := by
  simp

theorem mem_dedupAux {seen : List String} {l : List Article} {b : Article}
    (hb : b ∈ dedupAux seen l) :
    fingerprint b.title ≠ "" ∧ fingerprint b.title ∉ seen ∧ b ∈ l := by
  induction l generalizing seen with
  | nil => simp [dedupAux] at hb
  | cons a rest ih =>
    rw [dedupAux] at hb
    by_cases h : (fingerprint a.title != "" && !(seen.contains (fingerprint a.title))) = true
    · rw [if_pos h] at hb
      rcases List.mem_cons.mp hb with rfl | hb'
      · exact ⟨((dedup_cond_iff _ _).mp h).1, ((dedup_cond_iff _ _).mp h).2,
          List.mem_cons_self _ _⟩
      · obtain ⟨h1, h2, h3⟩ := ih hb'
        exact ⟨h1, fun hm => h2 (List.mem_cons_of_mem _ hm), List.mem_cons_of_mem _ h3⟩
    · rw [if_neg h] at hb
      obtain ⟨h1, h2, h3⟩ := ih hb
      exact ⟨h1, h2, List.mem_cons_of_mem _ h3⟩

theorem pairwise_dedupAux (seen : List String) (l : List Article) :
    (dedupAux seen l).Pairwise
      (fun a b => fingerprint a.title ≠ fingerprint b.title) := by
  induction l generalizing seen with
  | nil => simp [dedupAux]
  | cons a rest ih =>
    rw [dedupAux]
    by_cases h : (fingerprint a.title != "" && !(seen.contains (fingerprint a.title))) = true
    · rw [if_pos h]
      refine List.pairwise_cons.mpr ⟨?_, ih _⟩
      intro b hb heq
      exact (mem_dedupAux hb).2.1 (heq ▸ List.mem_cons_self _ _)
    · rw [if_neg h]; exact ih _

theorem find?_dedupAux {seen : List String} {l : List Article} {b : Article}
    (hb : b ∈ dedupAux seen l) :
    l.find? (fun x => fingerprint x.title == fingerprint b.title) = some b := by
  induction l generalizing seen with
  | nil => simp [dedupAux] at hb
  | cons a rest ih =>
    rw [dedupAux] at hb
    by_cases h : (fingerprint a.title != "" && !(seen.contains (fingerprint a.title))) = true
    · rw [if_pos h] at hb
      rcases List.mem_cons.mp hb with rfl | hb'
      · simp [List.find?_cons]
      · have hne : fingerprint b.title ≠ fingerprint a.title := by
          intro heq
          exact (mem_dedupAux hb').2.1 (heq ▸ List.mem_cons_self _ _)
        rw [List.find?_cons]
        have hf : (fingerprint a.title == fingerprint b.title) = false :=
          beq_eq_false_iff_ne.mpr (fun hh => hne hh.symm)
        rw [hf]
        exact ih hb'
    · rw [if_neg h] at hb
      have hbprop := mem_dedupAux hb
      have hne : fingerprint a.title ≠ fingerprint b.title := by
        intro heq
        have hc := (not_iff_not.mpr (dedup_cond_iff (fingerprint a.title) seen)).mp h
        exact hc ⟨heq ▸ hbprop.1, heq ▸ hbprop.2.1⟩
      rw [List.find?_cons]
      have hf : (fingerprint a.title == fingerprint b.title) = false :=
        beq_eq_false_iff_ne.mpr hne
      rw [hf]
      exact ih hb

theorem cover_dedupAux {seen : List String} {l : List Article} {a : Article}
    (ha : a ∈ l) (h1 : fingerprint a.title ≠ "") (h2 : fingerprint a.title ∉ seen) :
    ∃ b ∈ dedupAux seen l, fingerprint b.title = fingerprint a.title := by
  induction l generalizing seen with
  | nil => simp at ha
  | cons hd rest ih =>
    rw [dedupAux]
    rcases List.mem_cons.mp ha with rfl | ha'
    · rw [if_pos ((dedup_cond_iff _ _).mpr ⟨h1, h2⟩)]
      exact ⟨_, List.mem_cons_self _ _, rfl⟩
    · by_cases h : (fingerprint hd.title != "" && !(seen.contains (fingerprint hd.title))) = true
      · rw [if_pos h]
        by_cases heq : fingerprint hd.title = fingerprint a.title
        · exact ⟨hd, List.mem_cons_self _ _, heq⟩
        · have hnotin : fingerprint a.title ∉ fingerprint hd.title :: seen := by
            intro hm
            rcases List.mem_cons.mp hm with hh | hh
            · exact heq hh.symm
            · exact h2 hh
          obtain ⟨b, hb, hfp⟩ := ih ha' hnotin
          exact ⟨b, List.mem_cons_of_mem _ hb, hfp⟩
      · rw [if_neg h]
        exact ih ha' h2

theorem stableInsert_perm (le : α → α → Bool) (a : α) (l : List α) :
    (stableInsert le a l).Perm (a :: l) := by
  induction l with
  | nil => rfl
  | cons b bs ih =>
    rw [stableInsert]
    by_cases h : le b a = true
    · rw [if_pos h]
      exact (ih.cons b).trans (List.Perm.swap a b bs)
    · rw [if_neg h]

theorem jsSortAux_perm (le : α → α → Bool) :
    ∀ (l acc : List α),
      (l.foldl (fun acc a => stableInsert le a acc) acc).Perm (acc ++ l) := by
  intro l
  induction l with
  | nil => simp
  | cons a l ih =>
    intro acc
    exact (ih _).trans
      (((stableInsert_perm le a acc).append_right l).trans List.perm_middle.symm)

theorem jsSort_perm (le : α → α → Bool) (l : List α) : (jsSort le l).Perm l := by
  simpa [jsSort] using jsSortAux_perm le l []

theorem pairwise_stableInsert (le : α → α → Bool)
    (total : ∀ a b, (le a b || le b a) = true)
    (htrans : ∀ a b c, le a b = true → le b c = true → le a c = true)
    (a : α) {l : List α} (hl : l.Pairwise (fun x y => le x y = true)) :
    (stableInsert le a l).Pairwise (fun x y => le x y = true) := by
  induction l with
  | nil => simp [stableInsert]
  | cons b bs ih =>
    rw [stableInsert]
    rcases List.pairwise_cons.mp hl with ⟨hb, hbs⟩
    by_cases h : le b a = true
    · rw [if_pos h]
      refine List.pairwise_cons.mpr ⟨?_, ih hbs⟩
      intro c hc
      rcases List.mem_cons.mp ((stableInsert_perm le a bs).mem_iff.mp hc) with rfl | hc'
      · exact h
      · exact hb c hc'
    · rw [if_neg h]
      have hab : le a b = true := by
        have htot := total a b
        rcases (Bool.or_eq_true _ _).mp htot with h' | h'
        · exact h'
        · exact absurd h' h
      refine List.pairwise_cons.mpr ⟨?_, hl⟩
      intro c hc
      rcases List.mem_cons.mp hc with rfl | hc'
      · exact hab
      · exact htrans a b c hab (hb c hc')

theorem pairwise_jsSort (le : α → α → Bool)
    (total : ∀ a b, (le a b || le b a) = true)
    (htrans : ∀ a b c, le a b = true → le b c = true → le a c = true)
    (l : List α) : (jsSort le l).Pairwise (fun x y => le x y = true) := by
  suffices h : ∀ (l acc : List α), acc.Pairwise (fun x y => le x y = true) →
      (l.foldl (fun acc a => stableInsert le a acc) acc).Pairwise
        (fun x y => le x y = true) by
    exact h l [] (List.Pairwise.nil)
  intro l
  induction l with
  | nil => intro acc h; simpa using h
  | cons a l ih =>
    intro acc h
    exact ih _ (pairwise_stableInsert le total htrans a h)

theorem countWindow_cons (w : Int) (q : RateState) (l : List RateState) :
    countWindow w (q :: l)
      = (if q.lastRequestTime = w then 1 else 0) + countWindow w l := by
  unfold countWindow
  rw [List.filter_cons]
  by_cases h : q.lastRequestTime = w
  · simp [h]
    omega
  · simp [h]

theorem rateLimitStep_last_mono (s : RateState) (t : Int) :
    s.lastRequestTime ≤ (rateLimitStep s t).2.lastRequestTime := by
  unfold rateLimitStep
  split
  · split
    · dsimp only
      omega
    · dsimp only
      omega
  · next h =>
    dsimp only
    omega

theorem countWindow_zero_of_lt (w : Int) :
    ∀ (ts : List Int) (s : RateState), w < s.lastRequestTime →
      countWindow w (runStates s ts) = 0 := by
  intro ts
  induction ts with
  | nil => intro s _; rfl
  | cons t ts ih =>
    intro s h
    have h2 : w < (rateLimitStep s t).2.lastRequestTime :=
      lt_of_lt_of_le h (rateLimitStep_last_mono s t)
    rw [runStates, countWindow_cons, if_neg (by omega), ih _ h2]

/-- Across any trace, at most `15 - requestCount` further calls are
counted against the current window, and at most 15 against any other
window: the fixed-window budget the limiter actually enforces. -/
theorem countWindow_le : ∀ (ts : List Int) (s : RateState) (w : Int),
    s.requestCount ≤ maxRequestsPerMinute →
    countWindow w (runStates s ts)
      ≤ if s.lastRequestTime = w then maxRequestsPerMinute - s.requestCount
        else maxRequestsPerMinute := by
  intro ts
  induction ts with
  | nil =>
    intro s w _
    have h0 : countWindow w (runStates s []) = 0 := rfl
    rw [h0]
    exact Nat.zero_le _
  | cons t ts ih =>
    intro s w hcount
    by_cases hwin : t - s.lastRequestTime < 60000
    · by_cases hmax : maxRequestsPerMinute ≤ s.requestCount
      · have hs' : (rateLimitStep s t).2 = ⟨s.lastRequestTime + 60000, 1⟩ := by
          unfold rateLimitStep
          rw [if_pos hwin, if_pos hmax]
        rw [runStates, countWindow_cons, hs']
        dsimp only
        by_cases hw : s.lastRequestTime + 60000 = w
        · have htail := ih ⟨s.lastRequestTime + 60000, 1⟩ w (by dsimp only; decide)
          dsimp only at htail
          rw [if_pos hw] at htail
          rw [if_pos hw, if_neg (show ¬ s.lastRequestTime = w by omega)]
          unfold maxRequestsPerMinute at htail ⊢
          omega
        · rw [if_neg hw]
          by_cases hlw : s.lastRequestTime = w
          · rw [if_pos hlw]
            have h0 := countWindow_zero_of_lt w ts ⟨s.lastRequestTime + 60000, 1⟩
              (by dsimp only; omega)
            rw [h0]
            omega
          · rw [if_neg hlw]
            have htail := ih ⟨s.lastRequestTime + 60000, 1⟩ w (by dsimp only; decide)
            dsimp only at htail
            rw [if_neg hw] at htail
            omega
      · have hs' : (rateLimitStep s t).2 = ⟨s.lastRequestTime, s.requestCount + 1⟩ := by
          unfold rateLimitStep
          rw [if_pos hwin, if_neg hmax]
        rw [runStates, countWindow_cons, hs']
        dsimp only
        have htail := ih ⟨s.lastRequestTime, s.requestCount + 1⟩ w
          (by dsimp only; unfold maxRequestsPerMinute at *; omega)
        dsimp only at htail
        by_cases hlw : s.lastRequestTime = w
        · rw [if_pos hlw] at htail
          rw [if_pos hlw, if_pos hlw]
          unfold maxRequestsPerMinute at *
          omega
        · rw [if_neg hlw] at htail
          rw [if_neg hlw, if_neg hlw]
          omega
    · have hs' : (rateLimitStep s t).2 = ⟨t, 1⟩ := by
        unfold rateLimitStep
        rw [if_neg hwin]
      rw [runStates, countWindow_cons, hs']
      dsimp only
      by_cases hw : t = w
      · have htail := ih ⟨t, 1⟩ w (by dsimp only; decide)
        dsimp only at htail
        rw [if_pos hw] at htail
        rw [if_pos hw, if_neg (show ¬ s.lastRequestTime = w by omega)]
        unfold maxRequestsPerMinute at *
        omega
      · rw [if_neg hw]
        by_cases hlw : s.lastRequestTime = w
        · rw [if_pos hlw]
          have h0 := countWindow_zero_of_lt w ts ⟨t, 1⟩ (by dsimp only; omega)
          rw [h0]
          omega
        · rw [if_neg hlw]
          have htail := ih ⟨t, 1⟩ w (by dsimp only; decide)
          dsimp only at htail
          rw [if_neg hw] at htail
          omega

theorem byDateDesc_total : ∀ a b : Article, (byDateDesc a b || byDateDesc b a) = true := by
  intro a b
  simp [byDateDesc]
  omega

theorem byDateDesc_trans : ∀ a b c : Article,
    byDateDesc a b = true → byDateDesc b c = true → byDateDesc a c = true := by
  intro a b c
  simp [byDateDesc]
  omega

theorem byCredDesc_total : ∀ a b : Article, (byCredDesc a b || byCredDesc b a) = true := by
  intro a b
  simp [byCredDesc]
  omega

/-! ## Concrete articles used in scenario statements -/

def appleA : Article := ⟨"Apple Beats Earnings!", "u1", "Finviz", "p1", 5, "c1"⟩
def appleB : Article := ⟨"apple beats earnings", "u2", "Polygon", "p2", 9, "c2"⟩
def symbolArt : Article := ⟨"!!! ???", "u", "Finviz", "p", 5, "c"⟩
def plainArt : Article := ⟨"Acme ships widgets", "u", "Finviz", "p", 7, "c"⟩

def mkScraped (i : Nat) : Article :=
  ⟨"Scraped article number " ++ toString i, "u", "TradingView", "tv", (i : Int), "c"⟩

def mkPolygonArt (i : Nat) : Article :=
  ⟨"Polygon article number " ++ toString i, "u", "Polygon", "pg", (i : Int), "c"⟩

/-- The spec's selector-fallback scenario: 12 candidates, the 3
API-provider (Polygon) articles listed last. -/
def scenario12 : List Article :=
  (List.range 9).map mkScraped ++ (List.range 3).map (fun i => mkPolygonArt (9 + i))

/-! ## Claim C3 -/

/-- C3: inside `collectNews`, the deduplicated list contains no two
articles with the same fingerprint (lowercased title, non-alphanumerics
stripped, truncated to 50 chars); the first occurrence of each
fingerprint is kept and later duplicates discarded; the final list is
sorted descending by `publishedAt`; and two titles differing only by
punctuation and case deduplicate to one. -/
theorem C3_removeDuplicates :
    (∀ l : List Article,
      (removeDuplicates l).Pairwise
        (fun a b => fingerprint a.title ≠ fingerprint b.title)
      ∧ (removeDuplicates l).Pairwise (fun a b => b.publishedAt ≤ a.publishedAt)
      ∧ (∀ b ∈ removeDuplicates l,
          l.find? (fun x => fingerprint x.title == fingerprint b.title) = some b)
      ∧ (∀ a ∈ l, fingerprint a.title ≠ "" →
          ∃ b ∈ removeDuplicates l, fingerprint b.title = fingerprint a.title))
    ∧ fingerprint appleA.title = fingerprint appleB.title
    ∧ removeDuplicates [appleA, appleB] = [appleA] := by
  refine ⟨fun l => ⟨?_, ?_, ?_, ?_⟩, by decide, by decide⟩
  · exact ((jsSort_perm byDateDesc (dedupAux [] l)).pairwise_iff
      (fun h => h.symm)).mpr (pairwise_dedupAux [] l)
  · exact (pairwise_jsSort byDateDesc byDateDesc_total byDateDesc_trans
      (dedupAux [] l)).imp (fun h => by simpa [byDateDesc] using h)
  · intro b hb
    exact find?_dedupAux
      ((jsSort_perm byDateDesc (dedupAux [] l)).mem_iff.mp hb)
  · intro a ha hfp
    obtain ⟨b, hb, heq⟩ := cover_dedupAux ha hfp (List.not_mem_nil _)
    exact ⟨b, (jsSort_perm byDateDesc (dedupAux [] l)).mem_iff.mpr hb, heq⟩

theorem C3_witness :
    [appleA, appleB].find?
      (fun x => fingerprint x.title == fingerprint appleA.title) = some appleA :=
  (C3_removeDuplicates.1 [appleA, appleB]).2.2.1 appleA (by decide)

/-! ## Claim C10 -/

/-- C10 (implicit): an article whose title has no ASCII letters or digits
has the empty fingerprint and is silently dropped by `removeDuplicates`,
even with no duplicate present. -/
theorem C10_empty_fingerprint :
    (∀ l : List Article, ∀ a ∈ removeDuplicates l, fingerprint a.title ≠ "")
    ∧ fingerprint symbolArt.title = ""
    ∧ removeDuplicates [symbolArt] = [] := by
  refine ⟨fun l a ha => ?_, by decide, by decide⟩
  exact (mem_dedupAux
    ((jsSort_perm byDateDesc (dedupAux [] l)).mem_iff.mp ha)).1

theorem C10_witness : fingerprint plainArt.title ≠ "" :=
  C10_empty_fingerprint.1 [plainArt] plainArt (by decide)

/-! ## Claim C2 -/

def cexTimes : List Int := List.replicate 16 50000 ++ List.replicate 14 60000

def cexStarts : List Int := (runRateCalls ⟨0, 0⟩ cexTimes).1

/-- C2 counterexample: sixteen calls arrive at t = 50 s (the 16th
suspends until t = 60 s and resets the window) followed by fourteen calls
at t = 60 s; all thirty generative calls start inside the rolling window
`[50000, 110000)`, so the claimed rolling 60-second bound of 15 fails. -/
theorem C2_counterexample :
    List.Pairwise (fun a b : Int => a ≤ b) cexTimes ∧ ¬ rollingWindowOK cexStarts := by
  refine ⟨by decide, fun h => ?_⟩
  have h50 := h 50000
  revert h50
  decide

/-- C2 amended: the limiter is a fixed-window throttler, not a rolling
one.  The per-window counter maintained by `rateLimit` always stays in
`[1, 15]`; a call arriving with the window budget exhausted suspends
until the window elapses (start time `windowStart + 60 s`), resets the
counter and proceeds — never an error; calls inside the window with
budget left, and calls after the window, start immediately; across a
whole trace at most 15 calls are counted against any one fixed window.
(But across a window reset a rolling 60-second span can see up to 30
starts, as the counterexample shows.) -/
theorem C2_amended : ∀ (s : RateState) (now : Int),
    (1 ≤ (rateLimitStep s now).2.requestCount
      ∧ (rateLimitStep s now).2.requestCount ≤ maxRequestsPerMinute)
    ∧ (now - s.lastRequestTime < 60000 → maxRequestsPerMinute ≤ s.requestCount →
        rateLimitStep s now = (s.lastRequestTime + 60000, ⟨s.lastRequestTime + 60000, 1⟩))
    ∧ (now - s.lastRequestTime < 60000 → s.requestCount < maxRequestsPerMinute →
        rateLimitStep s now = (now, ⟨s.lastRequestTime, s.requestCount + 1⟩))
    ∧ (¬ now - s.lastRequestTime < 60000 → rateLimitStep s now = (now, ⟨now, 1⟩))
    ∧ (∀ ts : List Int, s.requestCount ≤ maxRequestsPerMinute →
        (runRateCalls s ts).2.requestCount ≤ maxRequestsPerMinute)
    ∧ (∀ (ts : List Int) (w : Int), s.requestCount ≤ maxRequestsPerMinute →
        countWindow w (runStates s ts) ≤ maxRequestsPerMinute) := by
  have hstep : ∀ (s : RateState) (now : Int),
      1 ≤ (rateLimitStep s now).2.requestCount
      ∧ (rateLimitStep s now).2.requestCount ≤ maxRequestsPerMinute := by
    intro s now
    unfold rateLimitStep maxRequestsPerMinute
    split
    · split
      · dsimp only
        omega
      · next h2 =>
        dsimp only
        omega
    · dsimp only
      omega
  intro s now
  refine ⟨hstep s now, ?_, ?_, ?_, ?_, ?_⟩
  · intro h1 h2
    unfold rateLimitStep
    rw [if_pos h1, if_pos h2]
  · intro h1 h2
    unfold rateLimitStep
    rw [if_pos h1, if_neg (by omega)]
  · intro h1
    unfold rateLimitStep
    rw [if_neg h1]
  · intro ts
    induction ts generalizing s with
    | nil => intro h; exact h
    | cons t ts ih =>
      intro _
      exact ih ((rateLimitStep s t).2) (hstep s t).2
  · intro ts w hle
    have h := countWindow_le ts s w hle
    by_cases hw : s.lastRequestTime = w
    · rw [if_pos hw] at h
      omega
    · rw [if_neg hw] at h
      exact h

theorem C2_witness :
    rateLimitStep ⟨0, 15⟩ 1000 = (60000, ⟨60000, 1⟩)
    ∧ (runRateCalls ⟨0, 3⟩ [10, 20]).2.requestCount ≤ maxRequestsPerMinute
    ∧ countWindow 0 (runStates ⟨0, 3⟩ [10, 20]) ≤ maxRequestsPerMinute :=
  ⟨(C2_amended ⟨0, 15⟩ 1000).2.1 (by decide) (by decide),
   (C2_amended ⟨0, 3⟩ 0).2.2.2.2.1 [10, 20] (by decide),
   (C2_amended ⟨0, 3⟩ 0).2.2.2.2.2 [10, 20] 0 (by decide)⟩

/-! ## Claim C4 -/

theorem selectByIndices_len_le (a : List Article) (nums : List Nat) :
    (selectByIndices a nums).length ≤ 7 :=
  le_trans (List.length_filterMap_le _ _) (List.length_take_le _ _)

/-- C4: the selector returns at most 7 articles for every input and
every service behaviour; an input of at most 7 articles is returned
unchanged with zero generative calls issued. -/
theorem C4_selector : ∀ (articles : List Article) (o : GenOutcome),
    (selectTopArticles articles o).1.length ≤ 7
    ∧ (articles.length ≤ 7 → selectTopArticles articles o = (articles, 0)) := by
  intro a o
  constructor
  · unfold selectTopArticles
    split
    · simp
    · split
      · next h7 => simpa using h7
      · cases o with
        | failure msg =>
          simp only []
          exact le_trans (List.length_take_le _ _) (by omega)
        | ok text =>
          cases hpi : parsedIndices text with
          | none =>
            simp only [hpi]
            exact le_trans (List.length_take_le _ _) (by omega)
          | some nums =>
            simp only [hpi]
            split
            · exact le_trans (List.length_take_le _ _) (by omega)
            · exact selectByIndices_len_le a nums
  · intro h7
    by_cases h0 : a.length = 0
    · have ha : a = [] := List.length_eq_zero.mp h0
      subst ha
      rfl
    · unfold selectTopArticles
      rw [if_neg h0, if_pos h7]

theorem C4_witness : selectTopArticles [appleA] (GenOutcome.failure "x") = ([appleA], 0) :=
  (C4_selector [appleA] (GenOutcome.failure "x")).2 (by decide)

/-! ## Claim C5 -/

/-- C5 counterexample: with the 12-candidate scenario list and a service
response carrying no indices at all (an "empty result"), the code returns
the FIRST six candidates in input order — here six scraped articles —
not the credibility-sorted prefix the claim describes (which would start
with the three Polygon articles). -/
theorem C5_counterexample :
    (selectTopArticles scenario12 (.ok "No suitable articles found")).1
      = scenario12.take 6
    ∧ scenario12.take 6 ≠ (credSort scenario12).take 6 := by
  constructor
  · decide
  · decide

/-- C5 amended: only when the generative call itself raises does the
selector fall back to the candidates stably sorted by source-credibility
tier (Polygon, then Finviz, then TradingView) truncated to 6; on a parse
failure or an empty selection it falls back to the first 6 candidates in
their original order.  The spec's scenario (12 candidates, 3 from
Polygon, call fails outright) does return 6 articles ordered
Polygon-first. -/
theorem C5_amended :
    (∀ (a : List Article) (msg : String), 7 < a.length →
      selectTopArticles a (.failure msg) = ((credSort a).take 6, 1))
    ∧ (∀ (a : List Article) (text : String), 7 < a.length →
        parsedIndices text = none →
        selectTopArticles a (.ok text) = (a.take 6, 1))
    ∧ (∀ (a : List Article) (text : String) (nums : List Nat), 7 < a.length →
        parsedIndices text = some nums → selectByIndices a nums = [] →
        selectTopArticles a (.ok text) = (a.take 6, 1))
    ∧ (selectTopArticles scenario12 (.failure "network error")).1.map (·.source)
        = ["Polygon", "Polygon", "Polygon", "TradingView", "TradingView", "TradingView"]
    ∧ (selectTopArticles scenario12 (.failure "network error")).1.length = 6 := by
  refine ⟨?_, ?_, ?_, by decide, by decide⟩
  · intro a msg h7
    unfold selectTopArticles
    rw [if_neg (by omega), if_neg (by omega)]
  · intro a text h7 hpi
    unfold selectTopArticles
    rw [if_neg (by omega), if_neg (by omega)]
    simp only [hpi]
  · intro a text nums h7 hpi hsel
    unfold selectTopArticles
    rw [if_neg (by omega), if_neg (by omega)]
    simp only [hpi, hsel]
    rfl

theorem C5_witness :
    selectTopArticles scenario12 (.failure "network error")
      = ((credSort scenario12).take 6, 1) :=
  C5_amended.1 scenario12 "network error" (by decide)

/-! ## Claim C7 -/

/-- C7: a cache entry younger than 5 minutes is returned verbatim with no
adapter requests and no cache mutation; a stale or missing entry triggers
the full fetch → filter → dedup pipeline, whose result is returned and
overwrites the cache entry wholesale. -/
theorem C7_cache : ∀ (cache : List (String × CacheEntry)) (ticker : String)
    (now : Int) (fetched : FetchResults),
    (∀ e, cacheGet cache ticker = some e → now - e.timestamp < cacheExpiry →
      collectNews cache ticker now fetched = (e.data, cache, 0))
    ∧ (∀ e, cacheGet cache ticker = some e → ¬ now - e.timestamp < cacheExpiry →
      collectNews cache ticker now fetched =
        (collectPipeline ticker fetched,
         cacheSet cache ticker ⟨collectPipeline ticker fetched, now⟩, 3))
    ∧ (cacheGet cache ticker = none →
      collectNews cache ticker now fetched =
        (collectPipeline ticker fetched,
         cacheSet cache ticker ⟨collectPipeline ticker fetched, now⟩, 3)) := by
  intro cache ticker now fetched
  refine ⟨?_, ?_, ?_⟩
  · intro e he hfresh
    unfold collectNews
    rw [he]
    simp [hfresh]
  · intro e he hstale
    unfold collectNews
    rw [he]
    simp [hstale]
  · intro hnone
    unfold collectNews
    rw [hnone]

def wCache : List (String × CacheEntry) := [("AAPL", ⟨[appleA], 1000⟩)]

def wFetch : FetchResults := ⟨some [appleB], none, some []⟩

theorem C7_witness :
    collectNews wCache "AAPL" 2000 wFetch = ([appleA], wCache, 0)
    ∧ collectNews wCache "AAPL" 400000 wFetch =
        (collectPipeline "AAPL" wFetch,
         cacheSet wCache "AAPL" ⟨collectPipeline "AAPL" wFetch, 400000⟩, 3) :=
  ⟨(C7_cache wCache "AAPL" 2000 wFetch).1 ⟨[appleA], 1000⟩ rfl (by decide),
   (C7_cache wCache "AAPL" 400000 wFetch).2.1 ⟨[appleA], 1000⟩ rfl (by decide)⟩

/-! ## jget computation lemmas for the summary-object paths -/

theorem jget_append_right_some {xs ys : List (String × Json)} {k : String} {v : Json}
    (h : jget ys k = some v) : jget (xs ++ ys) k = some v := by
  rw [jget_append, h]
  rfl

theorem jget_append_right_none {xs ys : List (String × Json)} {k : String}
    (h : jget ys k = none) : jget (xs ++ ys) k = jget xs k := by
  rw [jget_append, h]
  cases jget xs k <;> rfl

theorem jget_metaV2_articlesAnalyzed (nowIso ticker : String) (articles : List Article)
    (hist : Option (List Article)) :
    jget (metaV2 nowIso ticker articles hist) "articlesAnalyzed"
      = some (.num (toString (articles.take 25).length)) := by
  simp [metaV2, jget]

theorem jget_metaV2_ticker (nowIso ticker : String) (articles : List Article)
    (hist : Option (List Article)) :
    jget (metaV2 nowIso ticker articles hist) "ticker" = some (.str ticker) := by
  simp [metaV2, jget]

theorem jget_metaV2_none (nowIso ticker : String) (articles : List Article)
    (hist : Option (List Article)) (k : String)
    (hk : k ∈ ["summary", "whatChangedToday", "keyPoints", "sentiment",
               "marketImpact", "confidence"]) :
    jget (metaV2 nowIso ticker articles hist) k = none := by
  fin_cases hk <;> simp [metaV2, jget]

theorem recoverKp_arr {text : String} {j : Json} (h : recoverKp text = some j) :
    ∃ xs, j = .arr xs := by
  unfold recoverKp at h
  split at h
  · split at h
    · next xs _ => exact ⟨xs, (Option.some_inj.mp h).symm⟩
    · exact absurd h (by simp)
  · exact ⟨_, (Option.some_inj.mp h).symm⟩

theorem recoverV2_eq {text : String} {recon : List (String × Json)}
    (h : recoverV2 text = some recon) :
    ∃ kpVal, recoverKp text = some kpVal ∧ recon = recoverFields text kpVal := by
  unfold recoverV2 at h
  split at h
  · cases hkp : recoverKp text with
    | none => rw [hkp] at h; exact absurd h (by simp)
    | some kpVal =>
      rw [hkp] at h
      exact ⟨kpVal, rfl, (Option.some_inj.mp h).symm⟩
  · exact absurd h (by simp)

theorem jget_recoverFields_confidence (text : String) (kpVal : Json) :
    jget (recoverFields text kpVal) "confidence" = some (.str "low") := by
  simp [recoverFields, jget]

theorem jget_recoverFields_marketImpact (text : String) (kpVal : Json) :
    jget (recoverFields text kpVal) "marketImpact"
      = some (.str ((strFieldClosed "marketImpact" text).getD "medium")) := by
  simp [recoverFields, jget]

theorem jget_recoverFields_keyPoints (text : String) (kpVal : Json) :
    jget (recoverFields text kpVal) "keyPoints" = some kpVal := by
  simp [recoverFields, jget]

theorem isEmpty_false_of_ne {articles : List Article} (h : articles ≠ []) :
    articles.isEmpty = false := by
  cases articles with
  | nil => exact absurd rfl h
  | cons a l => rfl

/-! ## Claim C1 -/

/-- C1 counterexample: on an empty article list (the total-failure path,
which the claim covers via "for every article list"), the returned object
carries no `marketImpact`, no `confidence` and no `ticker` field at all —
even though the generative service was never consulted. -/
theorem C1_counterexample :
    (jget (generateSummaryV2 "2025-01-01T00:00:00.000Z" "AAPL" [] none
        (.ok "\x7b\x7d")) "marketImpact").isSome = false
    ∧ (jget (generateSummaryV2 "2025-01-01T00:00:00.000Z" "AAPL" [] none
        (.ok "\x7b\x7d")) "confidence").isSome = false
    ∧ (jget (generateSummaryV2 "2025-01-01T00:00:00.000Z" "AAPL" [] none
        (.ok "\x7b\x7d")) "ticker").isSome = false :=
  ⟨rfl, rfl, rfl⟩

/-- C1 amended: `generateSummary` never raises and always returns an
object, but the full required field set is not always populated:
`articlesAnalyzed` is present on every path; `ticker` is present exactly
when the article list is non-empty; `summary`, `whatChangedToday`,
`keyPoints` and `sentiment` are present on the empty-articles, error,
recovered and text-fallback paths; on the successfully-parsed path every
non-metadata field is copied from the model's JSON unvalidated (so any of
them, including `marketImpact` and `confidence`, may be absent); on the
recovery path `marketImpact` is populated and `confidence = "low"`. -/
theorem C1_amended : ∀ (nowIso ticker : String) (articles : List Article)
    (hist : Option (List Article)) (outcome : GenOutcome),
    (jget (generateSummaryV2 nowIso ticker articles hist outcome)
        "articlesAnalyzed").isSome = true
    ∧ (articles ≠ [] →
        jget (generateSummaryV2 nowIso ticker articles hist outcome) "ticker"
          = some (.str ticker))
    ∧ (articles = [] →
        jget (generateSummaryV2 nowIso ticker articles hist outcome) "ticker" = none)
    ∧ ((articles = [] ∨ (∃ msg, outcome = .failure msg) ∨
        (∃ text, outcome = .ok text ∧ jsonParse (cleanedOf text) = none)) →
        ((jget (generateSummaryV2 nowIso ticker articles hist outcome)
            "summary").isSome = true
         ∧ (jget (generateSummaryV2 nowIso ticker articles hist outcome)
            "whatChangedToday").isSome = true
         ∧ (jget (generateSummaryV2 nowIso ticker articles hist outcome)
            "keyPoints").isSome = true
         ∧ (jget (generateSummaryV2 nowIso ticker articles hist outcome)
            "sentiment").isSome = true))
    ∧ (∀ text recon, outcome = .ok text → articles ≠ [] →
        jsonParse (cleanedOf text) = none → recoverV2 (cleanedOf text) = some recon →
        jget (generateSummaryV2 nowIso ticker articles hist outcome) "confidence"
          = some (.str "low")
        ∧ jget (generateSummaryV2 nowIso ticker articles hist outcome) "marketImpact"
          = some (.str ((strFieldClosed "marketImpact" (cleanedOf text)).getD "medium")))
    ∧ (∀ text parsed, outcome = .ok text → articles ≠ [] →
        jsonParse (cleanedOf text) = some parsed →
        jget (generateSummaryV2 nowIso ticker articles hist outcome) "summary"
          = jget (spreadFields parsed) "summary"
        ∧ jget (generateSummaryV2 nowIso ticker articles hist outcome) "confidence"
          = jget (spreadFields parsed) "confidence"
        ∧ jget (generateSummaryV2 nowIso ticker articles hist outcome) "marketImpact"
          = jget (spreadFields parsed) "marketImpact") := by
  intro nowIso ticker articles hist outcome
  by_cases hA : articles = []
  · subst hA
    refine ⟨by simp [generateSummaryV2, jget], fun h => absurd rfl h,
      fun _ => by simp [generateSummaryV2, jget], fun _ => ?_,
      fun text recon ho hne => absurd rfl hne,
      fun text parsed ho hne => absurd rfl hne⟩
    refine ⟨?_, ?_, ?_, ?_⟩ <;> simp [generateSummaryV2, jget]
  · have hne := isEmpty_false_of_ne hA
    cases outcome with
    | failure msg =>
      refine ⟨?_, fun _ => ?_, fun h => absurd h hA, fun _ => ?_,
        fun text recon ho => (GenOutcome.noConfusion ho),
        fun text parsed ho => (GenOutcome.noConfusion ho)⟩
      · simp [generateSummaryV2, hne, jget]
      · simp [generateSummaryV2, hne, jget]
      · refine ⟨?_, ?_, ?_, ?_⟩ <;> simp [generateSummaryV2, hne, jget]
    | ok text =>
      cases hp : jsonParse (cleanedOf text) with
      | some parsed =>
        have hgen : generateSummaryV2 nowIso ticker articles hist (.ok text)
            = spreadFields parsed ++ metaV2 nowIso ticker articles hist := by
          simp [generateSummaryV2, hne, hp]
        refine ⟨?_, fun _ => ?_, fun h => absurd h hA, fun hcases => ?_,
          fun t recon ho hne' hpn hr => ?_, fun t parsed' ho hne' hp' => ?_⟩
        · rw [hgen]
          simp [jget_append, jget, metaV2, Option.or]
        · rw [hgen]
          simp [jget_append, jget, metaV2, Option.or]
        · rcases hcases with h | ⟨msg, h⟩ | ⟨t, h, hpn⟩
          · exact absurd h hA
          · exact GenOutcome.noConfusion h
          · injection h with ht
            subst ht
            rw [hp] at hpn
            exact Option.noConfusion hpn
        · injection ho with ht
          subst ht
          rw [hp] at hpn
          exact Option.noConfusion hpn
        · injection ho with ht
          subst ht
          rw [hp] at hp'
          injection hp' with hpp
          subst hpp
          refine ⟨?_, ?_, ?_⟩ <;>
            · rw [hgen]
              simp [jget_append, jget, metaV2, Option.or]
      | none =>
        cases hr : recoverV2 (cleanedOf text) with
        | some recon =>
          obtain ⟨kpVal, hkp, hrec⟩ := recoverV2_eq hr
          have hgen : generateSummaryV2 nowIso ticker articles hist (.ok text)
              = (recon ++ metaV2 nowIso ticker articles hist)
                  ++ [("_recovered", .bool true)] := by
            simp [generateSummaryV2, hne, hp, hr]
          refine ⟨?_, fun _ => ?_, fun h => absurd h hA, fun _ => ?_,
            fun t recon' ho hne' hpn hr' => ?_, fun t parsed ho hne' hp' => ?_⟩
          · rw [hgen]
            simp [jget_append, jget, metaV2, Option.or]
          · rw [hgen]
            simp [jget_append, jget, metaV2, Option.or]
          · refine ⟨?_, ?_, ?_, ?_⟩ <;>
            · rw [hgen, hrec]
              simp [jget_append, jget, metaV2, recoverFields, Option.or]
          · injection ho with ht
            subst ht
            rw [hr] at hr'
            injection hr' with hrr
            subst hrr
            constructor
            · rw [hgen, hrec]
              simp [jget_append, jget, metaV2, recoverFields, Option.or]
            · rw [hgen, hrec]
              simp [jget_append, jget, metaV2, recoverFields, Option.or]
          · injection ho with ht
            subst ht
            rw [hp] at hp'
            exact Option.noConfusion hp'
        | none =>
          have hgen := hp
          refine ⟨?_, fun _ => ?_, fun h => absurd h hA, fun _ => ?_,
            fun t recon' ho hne' hpn hr' => ?_, fun t parsed ho hne' hp' => ?_⟩
          · simp [generateSummaryV2, hne, hp, hr, jget]
          · simp [generateSummaryV2, hne, hp, hr, jget]
          · refine ⟨?_, ?_, ?_, ?_⟩ <;> simp [generateSummaryV2, hne, hp, hr, jget]
          · injection ho with ht
            subst ht
            rw [hr] at hr'
            exact Option.noConfusion hr'
          · injection ho with ht
            subst ht
            rw [hp] at hp'
            exact Option.noConfusion hp'

theorem C1_witness :
    jget (generateSummaryV2 "2025-01-01" "TSLA" [plainArt] none (.failure "boom")) "ticker"
      = some (.str "TSLA")
    ∧ (jget (generateSummaryV2 "2025-01-01" "TSLA" [plainArt] none (.failure "boom"))
        "summary").isSome = true :=
  ⟨(C1_amended "2025-01-01" "TSLA" [plainArt] none (.failure "boom")).2.1 (by decide),
   ((C1_amended "2025-01-01" "TSLA" [plainArt] none (.failure "boom")).2.2.2.1
      (Or.inr (Or.inl ⟨"boom", rfl⟩))).1⟩

/-! ## Claim C6 -/

/-- The spec's truncated-response scenario text:
`{"summary":"X is up on strong earnings","sentiment":"positive"` with the
closing brace and all remaining fields missing. -/
def c6text : String :=
  "\x7b\"summary\":\"X is up on strong earnings\",\"sentiment\":\"positive\""

def c6result : List (String × Json) :=
  generateSummaryV2 "2025-01-01T00:00:00.000Z" "XYZ" [plainArt] none (.ok c6text)

/-- C6 counterexample: on the scenario's truncated response the recovery
pass does NOT set `keyPoints` to the empty list — it fills in the
two-element placeholder `["Analysis continues", "Partial data received"]`. -/
theorem C6_counterexample :
    jget c6result "keyPoints"
      = some (.arr [.str "Analysis continues", .str "Partial data received"])
    ∧ Json.arr [.str "Analysis continues", .str "Partial data received"]
        ≠ Json.arr ([] : List Json) := by
  refine ⟨rfl, fun h => ?_⟩
  injection h with h'
  exact List.noConfusion h'

/-- C6 amended: on the truncated scenario response, recovery extracts
`summary` and `sentiment` verbatim, fills `keyPoints` with the
two-element placeholder list (not `[]`) and `marketImpact` with the
default `"medium"`, and sets the recovered flag (`_recovered = true`)
with `confidence = "low"`. -/
theorem C6_amended :
    jget c6result "summary" = some (.str "X is up on strong earnings")
    ∧ jget c6result "sentiment" = some (.str "positive")
    ∧ jget c6result "keyPoints"
        = some (.arr [.str "Analysis continues", .str "Partial data received"])
    ∧ jget c6result "marketImpact" = some (.str "medium")
    ∧ jget c6result "confidence" = some (.str "low")
    ∧ jget c6result "_recovered" = some (.bool true) :=
  ⟨rfl, rfl, rfl, rfl, rfl, rfl⟩

/-! ## Claim C8 -/

def a26 : List Article := List.replicate 26 plainArt

/-- C8 counterexample: 26 articles and a raised generative error put the
full input length — 26, exceeding the claimed bound of 25 — into
`articlesAnalyzed`. -/
theorem C8_counterexample :
    jget (generateSummaryV2 "2025-01-01" "TSLA" a26 none (.failure "timeout"))
        "articlesAnalyzed" = some (.num "26")
    ∧ 25 < (26 : Nat) :=
  ⟨rfl, by decide⟩

/-- C8 amended: `articlesAnalyzed` is 0 on empty input and
`min(len, 25) ≤ 25` on every path that consumed a service response
(successful parse, recovery, and text fallback alike); but on the outer
error path it equals the full input length and so can exceed 25. -/
theorem C8_amended : ∀ (nowIso ticker : String) (articles : List Article)
    (hist : Option (List Article)) (outcome : GenOutcome),
    (articles = [] →
      jget (generateSummaryV2 nowIso ticker articles hist outcome) "articlesAnalyzed"
        = some (.num "0"))
    ∧ (∀ msg, outcome = .failure msg → articles ≠ [] →
        jget (generateSummaryV2 nowIso ticker articles hist outcome) "articlesAnalyzed"
          = some (.num (toString articles.length)))
    ∧ (∀ text, outcome = .ok text → articles ≠ [] →
        jget (generateSummaryV2 nowIso ticker articles hist outcome) "articlesAnalyzed"
          = some (.num (toString (articles.take 25).length))
        ∧ (articles.take 25).length ≤ 25) := by
  intro nowIso ticker articles hist outcome
  refine ⟨?_, ?_, ?_⟩
  · intro hA
    subst hA
    simp [generateSummaryV2, jget]
  · intro msg ho hA
    subst ho
    have hne := isEmpty_false_of_ne hA
    simp [generateSummaryV2, hne, jget]
  · intro text ho hA
    subst ho
    have hne := isEmpty_false_of_ne hA
    refine ⟨?_, List.length_take_le _ _⟩
    cases hp : jsonParse (cleanedOf text) with
    | some parsed =>
      have hgen : generateSummaryV2 nowIso ticker articles hist (.ok text)
          = spreadFields parsed ++ metaV2 nowIso ticker articles hist := by
        simp [generateSummaryV2, hne, hp]
      rw [hgen]
      simp [jget_append, jget, metaV2, Option.or]
    | none =>
      cases hr : recoverV2 (cleanedOf text) with
      | some recon =>
        have hgen : generateSummaryV2 nowIso ticker articles hist (.ok text)
            = (recon ++ metaV2 nowIso ticker articles hist)
                ++ [("_recovered", .bool true)] := by
          simp [generateSummaryV2, hne, hp, hr]
        rw [hgen]
        simp [jget_append, jget, metaV2, Option.or]
      | none =>
        simp [generateSummaryV2, hne, hp, hr, jget]

theorem C8_witness :
    jget (generateSummaryV2 "2025-01-01" "ACME" [plainArt] none (.ok "hello"))
        "articlesAnalyzed"
      = some (.num (toString (([plainArt] : List Article).take 25).length))
    ∧ (([plainArt] : List Article).take 25).length ≤ 25 :=
  (C8_amended "2025-01-01" "ACME" [plainArt] none (.ok "hello")).2.2 "hello" rfl
    (by decide)

/-! ## Claim C9 -/

def c9text : String := "\x7b\"keyPoints\":\"oops\"\x7d"

/-- C9 counterexample: a successfully parsed response whose `keyPoints`
is a JSON string is passed through unvalidated by the second revision —
the returned `keyPoints` is the raw string, not an array. -/
theorem C9_counterexample :
    jget (generateSummaryV2 "2025-01-01" "ACME" [plainArt] none (.ok c9text))
        "keyPoints" = some (.str "oops")
    ∧ ∀ xs : List Json, Json.str "oops" ≠ Json.arr xs :=
  ⟨rfl, fun _ h => Json.noConfusion h⟩

/-- C9 amended: the first `generateSummary` revision always returns an
array `keyPoints` (coercing a non-array to `[]`), and the second revision
returns an array `keyPoints` on every path except its successfully-parsed
path, which copies whatever the model supplied without validation. -/
theorem C9_amended :
    (∀ (articles : List Article) (outcome : GenOutcome),
      ∃ xs, jget (generateSummaryV1 articles outcome) "keyPoints" = some (.arr xs))
    ∧ (∀ (nowIso ticker : String) (articles : List Article)
        (hist : Option (List Article)) (msg : String),
      ∃ xs, jget (generateSummaryV2 nowIso ticker articles hist (.failure msg))
          "keyPoints" = some (.arr xs))
    ∧ (∀ (nowIso ticker : String) (articles : List Article)
        (hist : Option (List Article)) (text : String),
        jsonParse (cleanedOf text) = none →
      ∃ xs, jget (generateSummaryV2 nowIso ticker articles hist (.ok text))
          "keyPoints" = some (.arr xs)) := by
  refine ⟨?_, ?_, ?_⟩
  · intro articles outcome
    by_cases hA : articles = []
    · subst hA
      exact ⟨[], by simp [generateSummaryV1, jget]⟩
    · have hne := isEmpty_false_of_ne hA
      cases outcome with
      | failure msg =>
        exact ⟨(articles.take 3).map (fun a => Json.str a.title),
          by simp [generateSummaryV1, hne, jget]⟩
      | ok text =>
        cases hp : jsonParse (braceSlice (rmFencesGlobal (trimStr text))) with
        | none =>
          exact ⟨(articles.take 4).map (fun a => Json.str a.title),
            by simp [generateSummaryV1, hne, hp, parseFallbackV1, jget]⟩
        | some parsed =>
          by_cases hv : requiredTruthy parsed = true
          · cases hkp : jget (objFields parsed) "keyPoints" with
            | some j =>
              cases j with
              | arr xs =>
                refine ⟨xs, ?_⟩
                have hgen : generateSummaryV1 articles (.ok text)
                    = objFields parsed := by
                  simp [generateSummaryV1, hne, hp, hv, hkp, kpIsArr]
                rw [hgen]
                exact hkp
              | null =>
                refine ⟨[], ?_⟩
                have hgen : generateSummaryV1 articles (.ok text)
                    = objFields parsed ++ [("keyPoints", .arr [])] := by
                  simp [generateSummaryV1, hne, hp, hv, hkp, kpIsArr]
                rw [hgen]
                exact jget_append_right_some (by simp [jget])
              | bool b =>
                refine ⟨[], ?_⟩
                have hgen : generateSummaryV1 articles (.ok text)
                    = objFields parsed ++ [("keyPoints", .arr [])] := by
                  simp [generateSummaryV1, hne, hp, hv, hkp, kpIsArr]
                rw [hgen]
                exact jget_append_right_some (by simp [jget])
              | num n =>
                refine ⟨[], ?_⟩
                have hgen : generateSummaryV1 articles (.ok text)
                    = objFields parsed ++ [("keyPoints", .arr [])] := by
                  simp [generateSummaryV1, hne, hp, hv, hkp, kpIsArr]
                rw [hgen]
                exact jget_append_right_some (by simp [jget])
              | str st =>
                refine ⟨[], ?_⟩
                have hgen : generateSummaryV1 articles (.ok text)
                    = objFields parsed ++ [("keyPoints", .arr [])] := by
                  simp [generateSummaryV1, hne, hp, hv, hkp, kpIsArr]
                rw [hgen]
                exact jget_append_right_some (by simp [jget])
              | obj fs =>
                refine ⟨[], ?_⟩
                have hgen : generateSummaryV1 articles (.ok text)
                    = objFields parsed ++ [("keyPoints", .arr [])] := by
                  simp [generateSummaryV1, hne, hp, hv, hkp, kpIsArr]
                rw [hgen]
                exact jget_append_right_some (by simp [jget])
            | none =>
              refine ⟨[], ?_⟩
              have hgen : generateSummaryV1 articles (.ok text)
                  = objFields parsed ++ [("keyPoints", .arr [])] := by
                simp [generateSummaryV1, hne, hp, hv, hkp, kpIsArr]
              rw [hgen]
              exact jget_append_right_some (by simp [jget])
          · have hgen : generateSummaryV1 articles (.ok text)
                = parseFallbackV1 articles := by
              simp [generateSummaryV1, hne, hp, hv]
            exact ⟨(articles.take 4).map (fun a => Json.str a.title),
              by rw [hgen]; simp [parseFallbackV1, jget]⟩
  · intro nowIso ticker articles hist msg
    by_cases hA : articles = []
    · subst hA
      exact ⟨[], by simp [generateSummaryV2, jget]⟩
    · have hne := isEmpty_false_of_ne hA
      exact ⟨((articles.take 3).map (·.title)).map Json.str,
        by simp [generateSummaryV2, hne, jget]⟩
  · intro nowIso ticker articles hist text hp
    by_cases hA : articles = []
    · subst hA
      exact ⟨[], by simp [generateSummaryV2, jget]⟩
    · have hne := isEmpty_false_of_ne hA
      cases hr : recoverV2 (cleanedOf text) with
      | some recon =>
        obtain ⟨kpVal, hkp, hrec⟩ := recoverV2_eq hr
        obtain ⟨xs, hxs⟩ := recoverKp_arr hkp
        subst hxs
        refine ⟨xs, ?_⟩
        have hgen : generateSummaryV2 nowIso ticker articles hist (.ok text)
            = (recon ++ metaV2 nowIso ticker articles hist)
                ++ [("_recovered", .bool true)] := by
          simp [generateSummaryV2, hne, hp, hr]
        rw [hgen, hrec]
        simp [jget_append, jget, metaV2, recoverFields, Option.or]
      | none =>
        exact ⟨(extractKeyPoints (cleanedOf text)).map Json.str,
          by simp [generateSummaryV2, hne, hp, hr, jget]⟩

theorem C9_witness :
    ∃ xs, jget (generateSummaryV2 "2025-01-01" "ACME" [plainArt] none (.ok "not json"))
        "keyPoints" = some (.arr xs) :=
  C9_amended.2.2 "2025-01-01" "ACME" [plainArt] none "not json" rfl

end StockNews
